import Mathlib

/-!
# Recipe Room server — verification of the room/session core

Shallow embedding of `server.js` of the RECIPE ROOM repository: the two
in-process maps (`rooms`, `users`), the socket event handlers
(`join-room`, `chat-message`, `next-step`, `start-timer`, `ai-question`,
`share-photo`, `disconnect`) and the emitted events.

Modelling conventions:
* JavaScript `Map` objects are association lists in insertion order;
  `Map.get / set / delete / has` become `mapGet / mapSet / mapDelete`.
* Wall-clock values (`Date.now()`, `toLocaleTimeString()`) are parameters
  of the events that read them.
* The outbound AI HTTP call is an oracle parameter of type
  `Except Unit String`: `.ok txt` is a well-formed 2xx response with
  extracted text `txt`, `.error ()` any failure caught by the handler's
  `catch` (network error, non-2xx, malformed body).
* A handler returning `none` models a thrown JavaScript `TypeError`
  (reading a property of `undefined`), i.e. a crashed invocation.
* JavaScript object identity matters in the ai-question handler (the
  success path pushes onto the room object captured before `await`, the
  catch path re-fetches from the map).  Each created room carries a
  generation number `gen` modelling reference identity: a re-created room
  under the same code has a different `gen`.
-/

namespace RecipeRoom

/-- Association-list lookup, mirroring JavaScript `Map.prototype.get`. -/
def mapGet {α : Type} (m : List (String × α)) (k : String) : Option α :=
  (m.find? (fun kv => kv.1 == k)).map (·.2)

/-- `Map.prototype.set`: overwrite the binding in place if the key is
present (keeping its position), else append.  Keys are unique in every
map the server builds, so replacing the first binding is exact. -/
def mapSet {α : Type} : List (String × α) → String → α → List (String × α)
  | [], k, v => [(k, v)]
  | kv :: rest, k, v =>
    if kv.1 == k then (k, v) :: rest else kv :: mapSet rest k v

/-- `Map.prototype.delete`. -/
def mapDelete {α : Type} (m : List (String × α)) (k : String) :
    List (String × α) :=
  m.filter (fun kv => kv.1 != k)

/-- The recipe payload a joiner supplies:
`{name, ingredients: string[], cookingTime}`. -/
structure Recipe where
  name : String
  ingredients : List String
  cookingTime : Int
  deriving Repr, DecidableEq

/-- The `type` discriminator of a chat-log message. -/
inductive MsgType where
  | user
  | ai
  deriving Repr, DecidableEq

/-- A message as pushed onto `room.messages`:
`{id, username, message, timestamp, type}`. -/
structure Message where
  id : Nat
  username : String
  message : String
  timestamp : String
  type : MsgType
  deriving Repr, DecidableEq

/-- A participant record as pushed onto `room.participants`:
`{id, username, currentStep, isReady}`. -/
structure Participant where
  id : String
  username : String
  currentStep : Int
  isReady : Bool
  deriving Repr, DecidableEq

/-- A room record as stored in the `rooms` map.  `gen` is the modelling
generation tag for reference identity (see the module docstring); the
remaining fields are exactly the JavaScript object fields. -/
structure Room where
  gen : Nat
  participants : List Participant
  recipe : Recipe
  startTime : Option Int
  messages : List Message
  currentStep : Int
  deriving Repr, DecidableEq

/-- A `users` map entry: `{roomCode, username}`. -/
structure UserEntry where
  roomCode : String
  username : String
  deriving Repr, DecidableEq

/-- The whole mutable server state: the `rooms` and `users` maps, plus
the next fresh generation tag. -/
structure State where
  rooms : List (String × Room)
  users : List (String × UserEntry)
  nextGen : Nat
  deriving Repr, DecidableEq

/-- The state at server start: both maps empty. -/
def initState : State := ⟨[], [], 0⟩

/-- Payloads of outbound socket events. -/
inductive Payload where
  | userJoined (participants : List Participant) (recipe : Recipe)
      (messages : List Message)
  | roomFull (msg : String)
  | newMessage (m : Message)
  | stepUpdated (userId : String) (username : String) (step : Int)
  | timerStarted (duration : Int) (startedBy : String)
  | photoShared (username : String) (photo : String) (filename : String)
      (timestamp : String)
  | userLeft (username : String) (participants : List Participant)
  deriving Repr, DecidableEq

/-- An emission: `socket.emit` to the requesting connection, or
`io.to(roomCode).emit` to every socket in a room. -/
inductive Emit where
  | toSocket (sid : String) (p : Payload)
  | toRoom (roomCode : String) (p : Payload)
  deriving Repr, DecidableEq

/-- The string argument of the `room-full` emission. -/
def roomFullMsg : String := "Room is full (max 8 participants)"

/-- The fixed display name of the AI assistant. -/
def aiName : String := "AI Chef 🤖"

/-- The fixed fallback body used when the AI call fails. -/
def fallbackText : String :=
  "Sorry, I'm having trouble right now. Try asking other participants or check back in a moment!"

/-- What the ai-question handler captures before its `await`: the asking
user's room code and the identity of the room object fetched then. -/
structure Pending where
  roomCode : String
  gen : Nat
  deriving Repr, DecidableEq

/-- The `join-room` handler (`server.js` lines 38–78): create the room if
absent, then either append the participant, register the connection and
broadcast `user-joined`, or — at 8 participants — emit `room-full` to the
requesting socket only. -/
def handleJoin (s : State) (sid roomCode username : String) (recipe : Recipe) :
    State × List Emit :=
  let present := (mapGet s.rooms roomCode).isSome
  let rooms0 :=
    if present then s.rooms
    else mapSet s.rooms roomCode
      { gen := s.nextGen, participants := [], recipe := recipe,
        startTime := none, messages := [], currentStep := 0 }
  let nextGen0 := if present then s.nextGen else s.nextGen + 1
  match mapGet rooms0 roomCode with
  | none => (s, [])   -- unreachable: the room was just ensured present
  | some room =>
    if room.participants.length < 8 then
      let user : Participant :=
        { id := sid, username := username, currentStep := 0, isReady := false }
      let room' := { room with participants := room.participants ++ [user] }
      ({ rooms := mapSet rooms0 roomCode room',
         users := mapSet s.users sid { roomCode := roomCode, username := username },
         nextGen := nextGen0 },
       [Emit.toRoom roomCode
          (Payload.userJoined room'.participants room'.recipe room'.messages)])
    else
      ({ s with rooms := rooms0, nextGen := nextGen0 },
       [Emit.toSocket sid (Payload.roomFull roomFullMsg)])

/-- The `chat-message` handler (lines 81–97).  An unregistered sender is
a silent no-op; a registered sender whose room is (unreachably) absent
would throw on `room.messages.push`, modelled as `none`. -/
def handleChat (s : State) (sid msg : String) (now : Nat) (tstr : String) :
    Option (State × List Emit) :=
  match mapGet s.users sid with
  | none => some (s, [])
  | some u =>
    let m : Message :=
      { id := now, username := u.username, message := msg,
        timestamp := tstr, type := MsgType.user }
    match mapGet s.rooms u.roomCode with
    | none => none
    | some room =>
      let room' := { room with messages := room.messages ++ [m] }
      some ({ s with rooms := mapSet s.rooms u.roomCode room' },
            [Emit.toRoom u.roomCode (Payload.newMessage m)])

/-- Overwrite the `currentStep` of the first participant whose `id`
matches, mirroring `room.participants.find(p => p.id === socket.id)`
followed by in-place mutation of the found object. -/
def setStepFirst (l : List Participant) (sid : String) (step : Int) :
    List Participant :=
  match l with
  | [] => []
  | p :: rest =>
    if p.id == sid then { p with currentStep := step } :: rest
    else p :: setStepFirst rest sid step

/-- The `next-step` handler (lines 100–115): overwrite the found
participant's step with the client value verbatim and broadcast
`step-updated`; no participant found is a silent no-op. -/
def handleNextStep (s : State) (sid : String) (step : Int) :
    Option (State × List Emit) :=
  match mapGet s.users sid with
  | none => some (s, [])
  | some u =>
    match mapGet s.rooms u.roomCode with
    | none => none
    | some room =>
      match room.participants.find? (fun p => p.id == sid) with
      | none => some (s, [])
      | some _ =>
        let room' :=
          { room with participants := setStepFirst room.participants sid step }
        some ({ s with rooms := mapSet s.rooms u.roomCode room' },
              [Emit.toRoom u.roomCode
                 (Payload.stepUpdated sid u.username step)])

/-- The `start-timer` handler (lines 118–126): pure broadcast. -/
def handleTimer (s : State) (sid : String) (duration : Int) :
    Option (State × List Emit) :=
  match mapGet s.users sid with
  | none => some (s, [])
  | some u =>
    some (s, [Emit.toRoom u.roomCode (Payload.timerStarted duration u.username)])

/-- The `share-photo` handler (lines 203–213): pure broadcast. -/
def handlePhoto (s : State) (sid photo filename tstr : String) :
    Option (State × List Emit) :=
  match mapGet s.users sid with
  | none => some (s, [])
  | some u =>
    some (s, [Emit.toRoom u.roomCode
                (Payload.photoShared u.username photo filename tstr)])

/-- What the ai-question handler does before its `await` (lines 130–135):
resolve the user (silent no-op if unregistered, outer `none` meaning
no pending call), fetch and capture the room object.  A registered user
with an absent room throws inside `try` at `room.recipe` and then again
inside `catch` at `room.messages.push`: a crash, modelled `none`. -/
def aiCapture (s : State) (sid : String) : Option (Option Pending) :=
  match mapGet s.users sid with
  | none => some none
  | some u =>
    match mapGet s.rooms u.roomCode with
    | none => none
    | some room => some (some { roomCode := u.roomCode, gen := room.gen })

/-- Completion of an in-flight AI call (lines 171–198).  Success pushes
onto the *captured* room object — visible in the store only if that very
object (same `gen`) is still mapped — and broadcasts.  Failure builds the
fallback message, *re-fetches* the room from the map and pushes: if the
room was deleted meanwhile, `room.messages.push` throws (`none`). -/
def aiFinish (s : State) (p : Pending) (result : Except Unit String)
    (now : Nat) (tstr : String) : Option (State × List Emit) :=
  match result with
  | Except.ok txt =>
    let m : Message :=
      { id := now, username := aiName, message := txt,
        timestamp := tstr, type := MsgType.ai }
    let rooms' :=
      match mapGet s.rooms p.roomCode with
      | some room =>
        if room.gen = p.gen then
          mapSet s.rooms p.roomCode
            { room with messages := room.messages ++ [m] }
        else s.rooms
      | none => s.rooms
    some ({ s with rooms := rooms' },
          [Emit.toRoom p.roomCode (Payload.newMessage m)])
  | Except.error _ =>
    let m : Message :=
      { id := now, username := aiName, message := fallbackText,
        timestamp := tstr, type := MsgType.ai }
    match mapGet s.rooms p.roomCode with
    | none => none
    | some room =>
      let room' := { room with messages := room.messages ++ [m] }
      some ({ s with rooms := mapSet s.rooms p.roomCode room' },
            [Emit.toRoom p.roomCode (Payload.newMessage m)])

/-- The `ai-question` handler run atomically: capture, then the call
completes with `result` before any other event is processed. -/
def handleAiQuestion (s : State) (sid : String)
    (result : Except Unit String) (now : Nat) (tstr : String) :
    Option (State × List Emit) :=
  match aiCapture s sid with
  | none => none
  | some none => some (s, [])
  | some (some p) => aiFinish s p result now tstr

/-- The `disconnect` handler (lines 216–237): filter the participant out
of its room, broadcast `user-left`, delete the room if now empty,
unregister the connection.  Unregistered: silent no-op. -/
def handleDisconnect (s : State) (sid : String) : State × List Emit :=
  match mapGet s.users sid with
  | none => (s, [])
  | some u =>
    match mapGet s.rooms u.roomCode with
    | none => ({ s with users := mapDelete s.users sid }, [])
    | some room =>
      let parts' := room.participants.filter (fun p => p.id != sid)
      let rooms1 := mapSet s.rooms u.roomCode { room with participants := parts' }
      let rooms2 :=
        if parts'.length = 0 then mapDelete rooms1 u.roomCode else rooms1
      ({ rooms := rooms2, users := mapDelete s.users sid, nextGen := s.nextGen },
       [Emit.toRoom u.roomCode (Payload.userLeft u.username parts')])

/-- Inbound events.  `aiQuestion` is the handler run without
interleaving; `aiFinish` is the delayed completion of a call whose
capture `p` was taken earlier (other events ran during the flight). -/
inductive Event where
  | joinRoom (sid roomCode username : String) (recipe : Recipe)
  | chatMessage (sid msg : String) (now : Nat) (tstr : String)
  | nextStep (sid : String) (step : Int)
  | startTimer (sid : String) (duration : Int)
  | aiQuestion (sid : String) (question : String)
      (result : Except Unit String) (now : Nat) (tstr : String)
  | aiFinish (p : Pending) (result : Except Unit String) (now : Nat)
      (tstr : String)
  | sharePhoto (sid photo filename tstr : String)
  | disconnect (sid : String)
  deriving Repr

/-- One handler invocation: `none` is a thrown `TypeError`. -/
def handle (s : State) : Event → Option (State × List Emit)
  | Event.joinRoom sid rc un re => some (handleJoin s sid rc un re)
  | Event.chatMessage sid msg now tstr => handleChat s sid msg now tstr
  | Event.nextStep sid step => handleNextStep s sid step
  | Event.startTimer sid d => handleTimer s sid d
  | Event.aiQuestion sid _q res now tstr => handleAiQuestion s sid res now tstr
  | Event.aiFinish p res now tstr => aiFinish s p res now tstr
  | Event.sharePhoto sid ph fn tstr => handlePhoto s sid ph fn tstr
  | Event.disconnect sid => some (handleDisconnect s sid)

/-- Run a sequence of events, stopping at a crash. -/
def run (s : State) : List Event → Option State
  | [] => some s
  | e :: es =>
    match handle s e with
    | none => none
    | some (s', _) => run s' es

/-- The participant count of a room code, `0` when absent. -/
def roomCount (s : State) (roomCode : String) : Nat :=
  match mapGet s.rooms roomCode with
  | none => 0
  | some room => room.participants.length

/-- A sequence of `join-room` events for one room code. -/
def joinEvents (roomCode : String) (l : List (String × String × Recipe)) :
    List Event :=
  l.map (fun x => Event.joinRoom x.1 roomCode x.2.1 x.2.2)

/-- The participant record a successful join appends. -/
def joiner (sid un : String) : Participant :=
  { id := sid, username := un, currentStep := 0, isReady := false }

/-- The message object the chat-message handler constructs. -/
def chatMsg (un msg : String) (now : Nat) (tstr : String) : Message :=
  { id := now, username := un, message := msg, timestamp := tstr,
    type := MsgType.user }

/-- The message object the ai-question handler constructs. -/
def aiMsg (txt : String) (now : Nat) (tstr : String) : Message :=
  { id := now, username := aiName, message := txt, timestamp := tstr,
    type := MsgType.ai }

/-- Replace one room binding of a state. -/
def setRoom (s : State) (rc : String) (r : Room) : State :=
  { s with rooms := mapSet s.rooms rc r }

/-- Append a message to a room's log. -/
def pushMsg (r : Room) (m : Message) : Room :=
  { r with messages := r.messages ++ [m] }

/-- A sample recipe payload for concrete instantiations. -/
def recW : Recipe := ⟨"Pasta", ["egg"], 20⟩

/-- A second, different sample recipe payload. -/
def recW2 : Recipe := ⟨"Burger", [], 9⟩

/-- A one-participant room. -/
def roomOne : Room := ⟨0, [⟨"s1", "u1", 0, false⟩], recW, none, [], 0⟩

/-- The state after `s1` joins room `R` of the fresh server. -/
def stOne : State := ⟨[("R", roomOne)], [("s1", ⟨"R", "u1"⟩)], 1⟩

/-- A second one-participant room. -/
def roomB : Room := ⟨1, [⟨"s2", "u2", 0, false⟩], recW, none, [], 0⟩

/-- A state with two rooms: `s1` in `R`, `s2` in `B2`. -/
def stTwo : State :=
  ⟨[("R", roomOne), ("B2", roomB)],
   [("s1", ⟨"R", "u1"⟩), ("s2", ⟨"B2", "u2"⟩)], 2⟩

/-- An eight-participant room. -/
def roomFull8 : Room :=
  ⟨0, [⟨"s1", "u1", 0, false⟩, ⟨"s2", "u2", 0, false⟩, ⟨"s3", "u3", 0, false⟩,
       ⟨"s4", "u4", 0, false⟩, ⟨"s5", "u5", 0, false⟩, ⟨"s6", "u6", 0, false⟩,
       ⟨"s7", "u7", 0, false⟩, ⟨"s8", "u8", 0, false⟩],
   recW, none, [], 0⟩

/-- A state whose room `R` is at capacity. -/
def stFull : State := ⟨[("R", roomFull8)], [], 1⟩

/-- Spec §3 invariant: every stored room has at least one participant. -/
def roomsNonempty (s : State) : Prop :=
  ∀ rc r, mapGet s.rooms rc = some r → r.participants ≠ []

/-- The dead fields: room-wide `currentStep` stays `0`, `startTime` stays
`null`, every participant's `isReady` stays `false`. -/
def deadFieldsInit (s : State) : Prop :=
  ∀ rc r, mapGet s.rooms rc = some r →
    r.currentStep = 0 ∧ r.startTime = none ∧
    ∀ p ∈ r.participants, p.isReady = false

/-! ## Association-list map lemmas -/

theorem mapGet_set_self {α : Type} (m : List (String × α)) (k : String) (v : α) :
    mapGet (mapSet m k v) k = some v := by
  induction m with
  | nil => simp [mapGet, mapSet]
  | cons kv rest ih =>
    obtain ⟨a, b⟩ := kv
    by_cases h : a = k
    · simp [mapGet, mapSet, h]
    · simpa [mapGet, mapSet, h] using ih

theorem mapGet_set_ne {α : Type} (m : List (String × α)) (k k' : String) (v : α)
    (h : k' ≠ k) : mapGet (mapSet m k v) k' = mapGet m k' := by
  induction m with
  | nil => simp [mapGet, mapSet, Ne.symm h]
  | cons kv rest ih =>
    obtain ⟨a, b⟩ := kv
    by_cases hk : a = k
    · simp [mapGet, mapSet, hk, Ne.symm h]
    · by_cases hk' : a = k'
      · simp [mapGet, mapSet, hk, hk', h]
      · simpa [mapGet, mapSet, hk, hk'] using ih

theorem mapGet_del_self {α : Type} (m : List (String × α)) (k : String) :
    mapGet (mapDelete m k) k = none := by
  induction m with
  | nil => simp [mapGet, mapDelete]
  | cons kv rest ih =>
    obtain ⟨a, b⟩ := kv
    by_cases h : a = k
    · simp [mapGet, mapDelete, h] at ih ⊢
    · simp [mapGet, mapDelete, h] at ih ⊢

theorem mapGet_del_ne {α : Type} (m : List (String × α)) (k k' : String)
    (h : k' ≠ k) : mapGet (mapDelete m k) k' = mapGet m k' := by
  induction m with
  | nil => simp [mapGet, mapDelete]
  | cons kv rest ih =>
    obtain ⟨a, b⟩ := kv
    by_cases hk : a = k
    · simpa [mapGet, mapDelete, hk, Ne.symm h] using ih
    · by_cases hk' : a = k'
      · simp [mapGet, mapDelete, hk, hk', h]
      · simpa [mapGet, mapDelete, hk, hk'] using ih

theorem mapSet_set_self {α : Type} (m : List (String × α)) (k : String) (a b : α) :
    mapSet (mapSet m k a) k b = mapSet m k b := by
  induction m with
  | nil => simp [mapSet]
  | cons kv rest ih =>
    obtain ⟨x, y⟩ := kv
    by_cases h : x = k
    · simp [mapSet, h]
    · simp [mapSet, h, ih]

theorem mapDelete_set_self {α : Type} (m : List (String × α)) (k : String) (v : α) :
    mapDelete (mapSet m k v) k = mapDelete m k := by
  induction m with
  | nil => simp [mapSet, mapDelete]
  | cons kv rest ih =>
    obtain ⟨a, b⟩ := kv
    by_cases h : a = k
    · simp [mapSet, mapDelete, h]
    · simp only [mapSet, mapDelete] at ih ⊢
      simp [h, ih]

/-- Combined form: lookup after set. -/
theorem mapGet_set {α : Type} (m : List (String × α)) (k k' : String) (v : α) :
    mapGet (mapSet m k v) k' = if k' = k then some v else mapGet m k' := by
  by_cases h : k' = k
  · subst h; simp [mapGet_set_self]
  · simp [h, mapGet_set_ne _ _ _ _ h]

/-- Combined form: lookup after delete. -/
theorem mapGet_del {α : Type} (m : List (String × α)) (k k' : String) :
    mapGet (mapDelete m k) k' = if k' = k then none else mapGet m k' := by
  by_cases h : k' = k
  · subst h; simp [mapGet_del_self]
  · simp [h, mapGet_del_ne _ _ _ h]

/-! ## Handler characterizations -/

theorem handleJoin_absent (s : State) (sid rc un : String) (re : Recipe)
    (h : mapGet s.rooms rc = none) :
    handleJoin s sid rc un re =
      ({ rooms := mapSet s.rooms rc
           { gen := s.nextGen, participants := [joiner sid un], recipe := re,
             startTime := none, messages := [], currentStep := 0 },
         users := mapSet s.users sid { roomCode := rc, username := un },
         nextGen := s.nextGen + 1 },
       [Emit.toRoom rc (Payload.userJoined [joiner sid un] re [])]) := by
  simp [handleJoin, h, mapGet_set_self, mapSet_set_self, joiner]

theorem handleJoin_present (s : State) (sid rc un : String) (re : Recipe)
    (r : Room) (h : mapGet s.rooms rc = some r)
    (hlt : r.participants.length < 8) :
    handleJoin s sid rc un re =
      (setRoom { s with users := mapSet s.users sid ⟨rc, un⟩ } rc
         { r with participants := r.participants ++ [joiner sid un] },
       [Emit.toRoom rc (Payload.userJoined (r.participants ++ [joiner sid un])
          r.recipe r.messages)]) := by
  simp [handleJoin, h, hlt, joiner, setRoom]

theorem handleJoin_full (s : State) (sid rc un : String) (re : Recipe)
    (r : Room) (h : mapGet s.rooms rc = some r)
    (hfull : ¬ r.participants.length < 8) :
    handleJoin s sid rc un re =
      (s, [Emit.toSocket sid (Payload.roomFull roomFullMsg)]) := by
  simp [handleJoin, h, hfull]

theorem handleChat_reg (s : State) (sid msg : String) (now : Nat) (tstr : String)
    (u : UserEntry) (room : Room) (hu : mapGet s.users sid = some u)
    (hr : mapGet s.rooms u.roomCode = some room) :
    handleChat s sid msg now tstr =
      some (setRoom s u.roomCode (pushMsg room (chatMsg u.username msg now tstr)),
            [Emit.toRoom u.roomCode
               (Payload.newMessage (chatMsg u.username msg now tstr))]) := by
  simp [handleChat, hu, hr, chatMsg, setRoom, pushMsg]

theorem find?_setStepFirst (l : List Participant) (sid : String) (st : Int) :
    (setStepFirst l sid st).find? (fun p => p.id == sid) =
      (l.find? (fun p => p.id == sid)).map
        (fun p => { p with currentStep := st }) := by
  induction l with
  | nil => rfl
  | cons p rest ih =>
    by_cases h : p.id = sid
    · simp [setStepFirst, h]
    · simp [setStepFirst, h, ih]

theorem setStepFirst_length (l : List Participant) (sid : String) (st : Int) :
    (setStepFirst l sid st).length = l.length := by
  induction l with
  | nil => rfl
  | cons p rest ih =>
    by_cases h : p.id = sid
    · simp [setStepFirst, h]
    · simp [setStepFirst, h, ih]

theorem mem_setStepFirst (l : List Participant) (sid : String) (st : Int)
    (q : Participant) (hq : q ∈ setStepFirst l sid st) :
    q ∈ l ∨ ∃ p ∈ l, q = { p with currentStep := st } := by
  induction l with
  | nil => simp [setStepFirst] at hq
  | cons p rest ih =>
    by_cases h : p.id = sid
    · simp [setStepFirst, h] at hq
      rcases hq with hq | hq
      · exact Or.inr ⟨p, List.mem_cons_self _ _, by rw [hq]; simp [h]⟩
      · exact Or.inl (List.mem_cons_of_mem _ hq)
    · simp [setStepFirst, h] at hq
      rcases hq with hq | hq
      · exact Or.inl (by simp [hq])
      · rcases ih hq with h1 | ⟨p1, hp1, hq1⟩
        · exact Or.inl (List.mem_cons_of_mem _ h1)
        · exact Or.inr ⟨p1, List.mem_cons_of_mem _ hp1, hq1⟩

theorem handleNextStep_reg (s : State) (sid : String) (st : Int)
    (u : UserEntry) (room : Room) (p0 : Participant)
    (hu : mapGet s.users sid = some u)
    (hr : mapGet s.rooms u.roomCode = some room)
    (hp : room.participants.find? (fun p => p.id == sid) = some p0) :
    handleNextStep s sid st =
      some (setRoom s u.roomCode
              { room with participants := setStepFirst room.participants sid st },
            [Emit.toRoom u.roomCode (Payload.stepUpdated sid u.username st)]) := by
  simp [handleNextStep, hu, hr, hp, setRoom]

theorem handleDisconnect_unreg (s : State) (sid : String)
    (h : mapGet s.users sid = none) : handleDisconnect s sid = (s, []) := by
  simp [handleDisconnect, h]

theorem handleDisconnect_last (s : State) (sid : String) (u : UserEntry)
    (room : Room) (hu : mapGet s.users sid = some u)
    (hr : mapGet s.rooms u.roomCode = some room)
    (hlast : room.participants.filter (fun p => p.id != sid) = []) :
    handleDisconnect s sid =
      ({ rooms := mapDelete s.rooms u.roomCode,
         users := mapDelete s.users sid, nextGen := s.nextGen },
       [Emit.toRoom u.roomCode (Payload.userLeft u.username [])]) := by
  simp [handleDisconnect, hu, hr, hlast, mapDelete_set_self]

theorem handleDisconnect_rest (s : State) (sid : String) (u : UserEntry)
    (room : Room) (hu : mapGet s.users sid = some u)
    (hr : mapGet s.rooms u.roomCode = some room)
    (hne : room.participants.filter (fun p => p.id != sid) ≠ []) :
    handleDisconnect s sid =
      ({ rooms := mapSet s.rooms u.roomCode
           { room with
             participants := room.participants.filter (fun p => p.id != sid) },
         users := mapDelete s.users sid, nextGen := s.nextGen },
       [Emit.toRoom u.roomCode (Payload.userLeft u.username
          (room.participants.filter (fun p => p.id != sid)))]) := by
  have : (room.participants.filter (fun p => p.id != sid)).length ≠ 0 := by
    simpa [List.length_eq_zero] using hne
  simp [handleDisconnect, hu, hr, this]

theorem aiFinish_ok_live (s : State) (p : Pending) (txt : String) (now : Nat)
    (tstr : String) (room : Room) (hr : mapGet s.rooms p.roomCode = some room)
    (hg : room.gen = p.gen) :
    aiFinish s p (Except.ok txt) now tstr =
      some (setRoom s p.roomCode (pushMsg room (aiMsg txt now tstr)),
            [Emit.toRoom p.roomCode (Payload.newMessage (aiMsg txt now tstr))]) := by
  simp [aiFinish, hr, hg, aiMsg, setRoom, pushMsg]

theorem aiFinish_ok_gone (s : State) (p : Pending) (txt : String) (now : Nat)
    (tstr : String) (hr : mapGet s.rooms p.roomCode = none) :
    aiFinish s p (Except.ok txt) now tstr =
      some (s, [Emit.toRoom p.roomCode (Payload.newMessage (aiMsg txt now tstr))]) := by
  simp [aiFinish, hr, aiMsg]

theorem aiFinish_ok_stale (s : State) (p : Pending) (txt : String) (now : Nat)
    (tstr : String) (room : Room) (hr : mapGet s.rooms p.roomCode = some room)
    (hg : room.gen ≠ p.gen) :
    aiFinish s p (Except.ok txt) now tstr =
      some (s, [Emit.toRoom p.roomCode (Payload.newMessage (aiMsg txt now tstr))]) := by
  simp [aiFinish, hr, hg, aiMsg]

theorem aiFinish_err_live (s : State) (p : Pending) (e : Unit) (now : Nat)
    (tstr : String) (room : Room) (hr : mapGet s.rooms p.roomCode = some room) :
    aiFinish s p (Except.error e) now tstr =
      some (setRoom s p.roomCode (pushMsg room (aiMsg fallbackText now tstr)),
            [Emit.toRoom p.roomCode
               (Payload.newMessage (aiMsg fallbackText now tstr))]) := by
  simp [aiFinish, hr, aiMsg, setRoom, pushMsg]

theorem aiFinish_err_gone (s : State) (p : Pending) (e : Unit) (now : Nat)
    (tstr : String) (hr : mapGet s.rooms p.roomCode = none) :
    aiFinish s p (Except.error e) now tstr = none := by
  simp [aiFinish, hr]

theorem handleChat_unreg (s : State) (sid msg : String) (now : Nat)
    (tstr : String) (h : mapGet s.users sid = none) :
    handleChat s sid msg now tstr = some (s, []) := by
  simp [handleChat, h]

theorem handleChat_gone (s : State) (sid msg : String) (now : Nat)
    (tstr : String) (u : UserEntry) (hu : mapGet s.users sid = some u)
    (hr : mapGet s.rooms u.roomCode = none) :
    handleChat s sid msg now tstr = none := by
  simp [handleChat, hu, hr]

theorem handleNextStep_unreg (s : State) (sid : String) (st : Int)
    (h : mapGet s.users sid = none) : handleNextStep s sid st = some (s, []) := by
  simp [handleNextStep, h]

theorem handleNextStep_gone (s : State) (sid : String) (st : Int)
    (u : UserEntry) (hu : mapGet s.users sid = some u)
    (hr : mapGet s.rooms u.roomCode = none) :
    handleNextStep s sid st = none := by
  simp [handleNextStep, hu, hr]

theorem handleNextStep_nofind (s : State) (sid : String) (st : Int)
    (u : UserEntry) (room : Room) (hu : mapGet s.users sid = some u)
    (hr : mapGet s.rooms u.roomCode = some room)
    (hp : room.participants.find? (fun p => p.id == sid) = none) :
    handleNextStep s sid st = some (s, []) := by
  simp [handleNextStep, hu, hr, hp]

theorem handleTimer_unreg (s : State) (sid : String) (d : Int)
    (h : mapGet s.users sid = none) : handleTimer s sid d = some (s, []) := by
  simp [handleTimer, h]

theorem handleTimer_reg (s : State) (sid : String) (d : Int) (u : UserEntry)
    (hu : mapGet s.users sid = some u) :
    handleTimer s sid d =
      some (s, [Emit.toRoom u.roomCode (Payload.timerStarted d u.username)]) := by
  simp [handleTimer, hu]

theorem handlePhoto_unreg (s : State) (sid photo fn tstr : String)
    (h : mapGet s.users sid = none) :
    handlePhoto s sid photo fn tstr = some (s, []) := by
  simp [handlePhoto, h]

theorem handlePhoto_reg (s : State) (sid photo fn tstr : String) (u : UserEntry)
    (hu : mapGet s.users sid = some u) :
    handlePhoto s sid photo fn tstr =
      some (s, [Emit.toRoom u.roomCode
                  (Payload.photoShared u.username photo fn tstr)]) := by
  simp [handlePhoto, hu]

theorem handleAiQuestion_unreg (s : State) (sid : String)
    (res : Except Unit String) (now : Nat) (tstr : String)
    (h : mapGet s.users sid = none) :
    handleAiQuestion s sid res now tstr = some (s, []) := by
  simp [handleAiQuestion, aiCapture, h]

theorem handleAiQuestion_gone (s : State) (sid : String)
    (res : Except Unit String) (now : Nat) (tstr : String) (u : UserEntry)
    (hu : mapGet s.users sid = some u)
    (hr : mapGet s.rooms u.roomCode = none) :
    handleAiQuestion s sid res now tstr = none := by
  simp [handleAiQuestion, aiCapture, hu, hr]

theorem handleAiQuestion_reg (s : State) (sid : String)
    (res : Except Unit String) (now : Nat) (tstr : String) (u : UserEntry)
    (room : Room) (hu : mapGet s.users sid = some u)
    (hr : mapGet s.rooms u.roomCode = some room) :
    handleAiQuestion s sid res now tstr =
      aiFinish s { roomCode := u.roomCode, gen := room.gen } res now tstr := by
  simp [handleAiQuestion, aiCapture, hu, hr]

/-- The disjunction describing what one handler invocation can do to a
single room binding. -/
def RoomChange (s : State) (rc : String) (r' : Room) : Prop :=
  mapGet s.rooms rc = some r' ∨
  (∃ r, mapGet s.rooms rc = some r ∧ r'.gen = r.gen ∧ r'.recipe = r.recipe ∧
     r'.startTime = r.startTime ∧ r'.currentStep = r.currentStep ∧
     (r.participants ≠ [] → r'.participants ≠ []) ∧
     (∀ q ∈ r'.participants,
        q.isReady = false ∨ ∃ p ∈ r.participants, q.isReady = p.isReady)) ∨
  (mapGet s.rooms rc = none ∧ r'.startTime = none ∧ r'.currentStep = 0 ∧
     r'.participants ≠ [] ∧ (∀ q ∈ r'.participants, q.isReady = false))

theorem aiFinish_rooms_cases (s : State) (p : Pending)
    (res : Except Unit String) (now : Nat) (tstr : String) (s' : State)
    (em : List Emit) (hstep : aiFinish s p res now tstr = some (s', em))
    (rc : String) (r' : Room) (h' : mapGet s'.rooms rc = some r') :
    RoomChange s rc r' := by
  cases res with
  | ok txt =>
    cases hr : mapGet s.rooms p.roomCode with
    | none =>
      rw [aiFinish_ok_gone s p txt now tstr hr] at hstep
      simp only [Option.some.injEq, Prod.mk.injEq] at hstep
      obtain ⟨h1, -⟩ := hstep
      subst h1
      exact Or.inl h'
    | some room =>
      by_cases hg : room.gen = p.gen
      · rw [aiFinish_ok_live s p txt now tstr room hr hg] at hstep
        simp only [Option.some.injEq, Prod.mk.injEq] at hstep
        obtain ⟨h1, -⟩ := hstep
        subst h1
        dsimp [setRoom] at h'
        by_cases hrc : rc = p.roomCode
        · subst hrc
          rw [mapGet_set_self] at h'
          injection h' with h''
          subst h''
          exact Or.inr (Or.inl ⟨room, hr, rfl, rfl, rfl, rfl, fun h => h,
            fun q hq => Or.inr ⟨q, hq, rfl⟩⟩)
        · rw [mapGet_set_ne _ _ _ _ hrc] at h'
          exact Or.inl h'
      · rw [aiFinish_ok_stale s p txt now tstr room hr hg] at hstep
        simp only [Option.some.injEq, Prod.mk.injEq] at hstep
        obtain ⟨h1, -⟩ := hstep
        subst h1
        exact Or.inl h'
  | error e =>
    cases hr : mapGet s.rooms p.roomCode with
    | none => rw [aiFinish_err_gone s p e now tstr hr] at hstep; cases hstep
    | some room =>
      rw [aiFinish_err_live s p e now tstr room hr] at hstep
      simp only [Option.some.injEq, Prod.mk.injEq] at hstep
      obtain ⟨h1, -⟩ := hstep
      subst h1
      dsimp [setRoom] at h'
      by_cases hrc : rc = p.roomCode
      · subst hrc
        rw [mapGet_set_self] at h'
        injection h' with h''
        subst h''
        exact Or.inr (Or.inl ⟨room, hr, rfl, rfl, rfl, rfl, fun h => h,
          fun q hq => Or.inr ⟨q, hq, rfl⟩⟩)
      · rw [mapGet_set_ne _ _ _ _ hrc] at h'
        exact Or.inl h'

/-- Effect of one completed handler invocation on one room binding:
untouched, mutated preserving identity / recipe / dead fields /
non-emptiness, or freshly created with one participant. -/
theorem handle_rooms_cases (s : State) (e : Event) (s' : State)
    (em : List Emit) (hstep : handle s e = some (s', em)) (rc : String)
    (r' : Room) (h' : mapGet s'.rooms rc = some r') :
    RoomChange s rc r' := by
  cases e with
  | joinRoom sid rc0 un re =>
    simp only [handle, Option.some.injEq] at hstep
    cases hr0 : mapGet s.rooms rc0 with
    | none =>
      rw [handleJoin_absent s sid rc0 un re hr0] at hstep
      simp only [Prod.mk.injEq] at hstep
      obtain ⟨h1, -⟩ := hstep
      subst h1
      dsimp at h'
      by_cases hrc : rc = rc0
      · subst hrc
        rw [mapGet_set_self] at h'
        injection h' with h''
        subst h''
        exact Or.inr (Or.inr ⟨hr0, rfl, rfl, by simp [joiner],
          by simp [joiner]⟩)
      · rw [mapGet_set_ne _ _ _ _ hrc] at h'
        exact Or.inl h'
    | some r0 =>
      by_cases hlt : r0.participants.length < 8
      · rw [handleJoin_present s sid rc0 un re r0 hr0 hlt] at hstep
        simp only [Prod.mk.injEq] at hstep
        obtain ⟨h1, -⟩ := hstep
        subst h1
        dsimp [setRoom] at h'
        by_cases hrc : rc = rc0
        · subst hrc
          rw [mapGet_set_self] at h'
          injection h' with h''
          subst h''
          refine Or.inr (Or.inl ⟨r0, hr0, rfl, rfl, rfl, rfl, by simp, ?_⟩)
          intro q hq
          rcases List.mem_append.mp hq with hq | hq
          · exact Or.inr ⟨q, hq, rfl⟩
          · simp only [List.mem_singleton] at hq
            exact Or.inl (by simp [hq, joiner])
        · rw [mapGet_set_ne _ _ _ _ hrc] at h'
          exact Or.inl h'
      · rw [handleJoin_full s sid rc0 un re r0 hr0 hlt] at hstep
        simp only [Prod.mk.injEq] at hstep
        obtain ⟨h1, -⟩ := hstep
        subst h1
        exact Or.inl h'
  | chatMessage sid msg now tstr =>
    simp only [handle] at hstep
    cases hu : mapGet s.users sid with
    | none =>
      rw [handleChat_unreg s sid msg now tstr hu] at hstep
      simp only [Option.some.injEq, Prod.mk.injEq] at hstep
      obtain ⟨h1, -⟩ := hstep
      subst h1
      exact Or.inl h'
    | some u =>
      cases hr : mapGet s.rooms u.roomCode with
      | none => rw [handleChat_gone s sid msg now tstr u hu hr] at hstep; cases hstep
      | some room =>
        rw [handleChat_reg s sid msg now tstr u room hu hr] at hstep
        simp only [Option.some.injEq, Prod.mk.injEq] at hstep
        obtain ⟨h1, -⟩ := hstep
        subst h1
        dsimp [setRoom] at h'
        by_cases hrc : rc = u.roomCode
        · subst hrc
          rw [mapGet_set_self] at h'
          injection h' with h''
          subst h''
          exact Or.inr (Or.inl ⟨room, hr, rfl, rfl, rfl, rfl, fun h => h,
            fun q hq => Or.inr ⟨q, hq, rfl⟩⟩)
        · rw [mapGet_set_ne _ _ _ _ hrc] at h'
          exact Or.inl h'
  | nextStep sid st =>
    simp only [handle] at hstep
    cases hu : mapGet s.users sid with
    | none =>
      rw [handleNextStep_unreg s sid st hu] at hstep
      simp only [Option.some.injEq, Prod.mk.injEq] at hstep
      obtain ⟨h1, -⟩ := hstep
      subst h1
      exact Or.inl h'
    | some u =>
      cases hr : mapGet s.rooms u.roomCode with
      | none => rw [handleNextStep_gone s sid st u hu hr] at hstep; cases hstep
      | some room =>
        cases hp : room.participants.find? (fun p => p.id == sid) with
        | none =>
          rw [handleNextStep_nofind s sid st u room hu hr hp] at hstep
          simp only [Option.some.injEq, Prod.mk.injEq] at hstep
          obtain ⟨h1, -⟩ := hstep
          subst h1
          exact Or.inl h'
        | some p0 =>
          rw [handleNextStep_reg s sid st u room p0 hu hr hp] at hstep
          simp only [Option.some.injEq, Prod.mk.injEq] at hstep
          obtain ⟨h1, -⟩ := hstep
          subst h1
          dsimp [setRoom] at h'
          by_cases hrc : rc = u.roomCode
          · subst hrc
            rw [mapGet_set_self] at h'
            injection h' with h''
            subst h''
            refine Or.inr (Or.inl ⟨room, hr, rfl, rfl, rfl, rfl, ?_, ?_⟩)
            · intro hne hcon
              apply hne
              dsimp only at hcon
              have hlen := setStepFirst_length room.participants sid st
              rw [hcon] at hlen
              exact List.eq_nil_of_length_eq_zero hlen.symm
            · intro q hq
              rcases mem_setStepFirst room.participants sid st q hq with hq1 | ⟨p1, hp1, hq1⟩
              · exact Or.inr ⟨q, hq1, rfl⟩
              · exact Or.inr ⟨p1, hp1, by simp [hq1]⟩
          · rw [mapGet_set_ne _ _ _ _ hrc] at h'
            exact Or.inl h'
  | startTimer sid d =>
    simp only [handle] at hstep
    cases hu : mapGet s.users sid with
    | none =>
      rw [handleTimer_unreg s sid d hu] at hstep
      simp only [Option.some.injEq, Prod.mk.injEq] at hstep
      obtain ⟨h1, -⟩ := hstep
      subst h1
      exact Or.inl h'
    | some u =>
      rw [handleTimer_reg s sid d u hu] at hstep
      simp only [Option.some.injEq, Prod.mk.injEq] at hstep
      obtain ⟨h1, -⟩ := hstep
      subst h1
      exact Or.inl h'
  | aiQuestion sid q res now tstr =>
    simp only [handle] at hstep
    cases hu : mapGet s.users sid with
    | none =>
      rw [handleAiQuestion_unreg s sid res now tstr hu] at hstep
      simp only [Option.some.injEq, Prod.mk.injEq] at hstep
      obtain ⟨h1, -⟩ := hstep
      subst h1
      exact Or.inl h'
    | some u =>
      cases hr : mapGet s.rooms u.roomCode with
      | none =>
        rw [handleAiQuestion_gone s sid res now tstr u hu hr] at hstep
        cases hstep
      | some room =>
        rw [handleAiQuestion_reg s sid res now tstr u room hu hr] at hstep
        exact aiFinish_rooms_cases s _ res now tstr s' em hstep rc r' h'
  | aiFinish p res now tstr =>
    simp only [handle] at hstep
    exact aiFinish_rooms_cases s p res now tstr s' em hstep rc r' h'
  | sharePhoto sid photo fn tstr =>
    simp only [handle] at hstep
    cases hu : mapGet s.users sid with
    | none =>
      rw [handlePhoto_unreg s sid photo fn tstr hu] at hstep
      simp only [Option.some.injEq, Prod.mk.injEq] at hstep
      obtain ⟨h1, -⟩ := hstep
      subst h1
      exact Or.inl h'
    | some u =>
      rw [handlePhoto_reg s sid photo fn tstr u hu] at hstep
      simp only [Option.some.injEq, Prod.mk.injEq] at hstep
      obtain ⟨h1, -⟩ := hstep
      subst h1
      exact Or.inl h'
  | disconnect sid =>
    simp only [handle, Option.some.injEq] at hstep
    cases hu : mapGet s.users sid with
    | none =>
      rw [handleDisconnect_unreg s sid hu] at hstep
      simp only [Prod.mk.injEq] at hstep
      obtain ⟨h1, -⟩ := hstep
      subst h1
      exact Or.inl h'
    | some u =>
      cases hr : mapGet s.rooms u.roomCode with
      | none =>
        rw [show handleDisconnect s sid = ({ s with users := mapDelete s.users sid }, [])
              from by simp [handleDisconnect, hu, hr]] at hstep
        simp only [Prod.mk.injEq] at hstep
        obtain ⟨h1, -⟩ := hstep
        subst h1
        exact Or.inl h'
      | some room =>
        by_cases hempty : room.participants.filter (fun p => p.id != sid) = []
        · rw [handleDisconnect_last s sid u room hu hr hempty] at hstep
          simp only [Prod.mk.injEq] at hstep
          obtain ⟨h1, -⟩ := hstep
          subst h1
          dsimp at h'
          by_cases hrc : rc = u.roomCode
          · subst hrc
            rw [mapGet_del_self] at h'
            cases h'
          · rw [mapGet_del_ne _ _ _ hrc] at h'
            exact Or.inl h'
        · rw [handleDisconnect_rest s sid u room hu hr hempty] at hstep
          simp only [Prod.mk.injEq] at hstep
          obtain ⟨h1, -⟩ := hstep
          subst h1
          dsimp at h'
          by_cases hrc : rc = u.roomCode
          · subst hrc
            rw [mapGet_set_self] at h'
            injection h' with h''
            subst h''
            refine Or.inr (Or.inl ⟨room, hr, rfl, rfl, rfl, rfl,
              fun _ => hempty, ?_⟩)
            intro q hq
            exact Or.inr ⟨q, List.mem_of_mem_filter hq, rfl⟩
          · rw [mapGet_set_ne _ _ _ _ hrc] at h'
            exact Or.inl h'

/-! ## Join sequences -/

theorem run_joins_present (rc : String) (l : List (String × String × Recipe)) :
    ∀ (s : State) (r : Room), mapGet s.rooms rc = some r →
      r.participants.length ≤ 8 →
      ∃ s' r', run s (joinEvents rc l) = some s' ∧
        mapGet s'.rooms rc = some r' ∧
        r'.participants.length = min (r.participants.length + l.length) 8 := by
  induction l with
  | nil =>
    intro s r h h8
    refine ⟨s, r, rfl, h, ?_⟩
    simp
    omega
  | cons j rest ih =>
    intro s r h h8
    have hrun : run s (joinEvents rc (j :: rest)) =
        run (handleJoin s j.1 rc j.2.1 j.2.2).1 (joinEvents rc rest) := by
      simp [joinEvents, run, handle]
    by_cases hlt : r.participants.length < 8
    · rw [handleJoin_present s j.1 rc j.2.1 j.2.2 r h hlt] at hrun
      have hget : mapGet (setRoom { s with users := mapSet s.users j.1 ⟨rc, j.2.1⟩ } rc
          { r with participants := r.participants ++ [joiner j.1 j.2.1] }).rooms rc =
          some { r with participants := r.participants ++ [joiner j.1 j.2.1] } := by
        dsimp [setRoom]
        exact mapGet_set_self _ _ _
      obtain ⟨s', r', hr1, hr2, hr3⟩ := ih _ _ hget (by simp; omega)
      refine ⟨s', r', by rw [hrun]; exact hr1, hr2, ?_⟩
      simp at hr3 ⊢
      omega
    · rw [handleJoin_full s j.1 rc j.2.1 j.2.2 r h hlt] at hrun
      obtain ⟨s', r', hr1, hr2, hr3⟩ := ih s r h h8
      refine ⟨s', r', by rw [hrun]; exact hr1, hr2, ?_⟩
      simp at hr3 ⊢
      omega

theorem run_joins_fresh (rc : String) (l : List (String × String × Recipe))
    (s : State) (h : mapGet s.rooms rc = none) :
    ∃ s', run s (joinEvents rc l) = some s' ∧
      roomCount s' rc = min l.length 8 := by
  cases l with
  | nil => exact ⟨s, rfl, by simp [roomCount, h]⟩
  | cons j rest =>
    have hrun : run s (joinEvents rc (j :: rest)) =
        run (handleJoin s j.1 rc j.2.1 j.2.2).1 (joinEvents rc rest) := by
      simp [joinEvents, run, handle]
    rw [handleJoin_absent s j.1 rc j.2.1 j.2.2 h] at hrun
    have hget : mapGet (mapSet s.rooms rc
        { gen := s.nextGen, participants := [joiner j.1 j.2.1], recipe := j.2.2,
          startTime := none, messages := [], currentStep := 0 }) rc =
        some { gen := s.nextGen, participants := [joiner j.1 j.2.1],
               recipe := j.2.2, startTime := none, messages := [],
               currentStep := 0 } := mapGet_set_self _ _ _
    obtain ⟨s', r', hr1, hr2, hr3⟩ :=
      run_joins_present rc rest
        { rooms := mapSet s.rooms rc
            { gen := s.nextGen, participants := [joiner j.1 j.2.1],
              recipe := j.2.2, startTime := none, messages := [],
              currentStep := 0 },
          users := mapSet s.users j.1 ⟨rc, j.2.1⟩, nextGen := s.nextGen + 1 }
        _ hget (by simp)
    refine ⟨s', by rw [hrun]; exact hr1, ?_⟩
    simp [roomCount, hr2]
    simp at hr3
    omega

/-- A lookup hit comes from an entry of the list. -/
theorem mapGet_mem {α : Type} (m : List (String × α)) (k : String) (v : α)
    (h : mapGet m k = some v) : ∃ kv ∈ m, kv.2 = v := by
  unfold mapGet at h
  cases hfind : m.find? (fun kv => kv.1 == k) with
  | none => rw [hfind] at h; cases h
  | some kv =>
    rw [hfind] at h
    exact ⟨kv, List.mem_of_find?_eq_some hfind, by simpa using h⟩

/-- Executable sufficient check for `roomsNonempty`. -/
theorem roomsNonempty_of_all (s : State)
    (h : s.rooms.all (fun kv => !kv.2.participants.isEmpty) = true) :
    roomsNonempty s := by
  intro rc r hr
  obtain ⟨kv, hkv, hkv2⟩ := mapGet_mem s.rooms rc r hr
  have hb := List.all_eq_true.mp h kv hkv
  rw [← hkv2]
  simpa [List.isEmpty_iff] using hb

/-- Executable sufficient check for `deadFieldsInit`. -/
theorem deadFields_of_all (s : State)
    (h : s.rooms.all (fun kv => kv.2.currentStep == 0 &&
      kv.2.startTime.isNone &&
      kv.2.participants.all (fun p => !p.isReady)) = true) :
    deadFieldsInit s := by
  intro rc r hr
  obtain ⟨kv, hkv, hkv2⟩ := mapGet_mem s.rooms rc r hr
  have hb := List.all_eq_true.mp h kv hkv
  simp only [Bool.and_eq_true, beq_iff_eq, Option.isNone_iff_eq_none,
    List.all_eq_true, Bool.not_eq_true'] at hb
  rw [← hkv2]
  exact ⟨hb.1.1, hb.1.2, fun p hp => hb.2 p hp⟩

/-! ## Claims -/

/-- C1: for every sequence of joins to a fresh room code the run
completes and the room's participant count equals `min N 8` — so the
Nth join with N ≤ 8 succeeds and yields count N — and a join to a room
already holding 8 participants returns the state (Room Store and
Connection Registry) completely unchanged while emitting `room-full` to
the requesting socket only, with no room broadcast. -/
theorem claim_c1 :
    (∀ (s : State) (rc : String), mapGet s.rooms rc = none →
       ∀ l, ∃ s', run s (joinEvents rc l) = some s' ∧
         roomCount s' rc = min l.length 8) ∧
    (∀ (s : State) (sid rc un : String) (re : Recipe) (r : Room),
       mapGet s.rooms rc = some r → r.participants.length = 8 →
       handle s (Event.joinRoom sid rc un re) =
         some (s, [Emit.toSocket sid (Payload.roomFull roomFullMsg)])) := by
  constructor
  · intro s rc h l
    exact run_joins_fresh rc l s h
  · intro s sid rc un re r h h8
    simp only [handle, Option.some.injEq]
    exact handleJoin_full s sid rc un re r h (by omega)

/-- C2: every completed handler invocation preserves the invariant that
a stored room has a non-empty participant list; a disconnect of the last
participant removes the room (and with it the message log) from the
store; and a subsequent join under the same room code creates a
brand-new room whose message log is empty. -/
theorem claim_c2 :
    (∀ (s : State) (e : Event) (s' : State) (em : List Emit),
       handle s e = some (s', em) → roomsNonempty s → roomsNonempty s') ∧
    (∀ (s : State) (sid : String) (u : UserEntry) (room : Room),
       mapGet s.users sid = some u → mapGet s.rooms u.roomCode = some room →
       room.participants.filter (fun p => p.id != sid) = [] →
       ∀ s' em, handle s (Event.disconnect sid) = some (s', em) →
         mapGet s'.rooms u.roomCode = none) ∧
    (∀ (s : State) (sid rc un : String) (re : Recipe),
       mapGet s.rooms rc = none →
       ∀ s' em, handle s (Event.joinRoom sid rc un re) = some (s', em) →
         ∃ r', mapGet s'.rooms rc = some r' ∧ r'.messages = [] ∧
           r'.participants = [joiner sid un]) := by
  refine ⟨?_, ?_, ?_⟩
  · intro s e s' em hstep hinv rc r' h'
    rcases handle_rooms_cases s e s' em hstep rc r' h' with
      h | ⟨r, hr, -, -, -, -, hne, -⟩ | ⟨-, -, -, hne, -⟩
    · exact hinv rc r' h
    · exact hne (hinv rc r hr)
    · exact hne
  · intro s sid u room hu hr hlast s' em hstep
    simp only [handle, Option.some.injEq] at hstep
    rw [handleDisconnect_last s sid u room hu hr hlast] at hstep
    simp only [Prod.mk.injEq] at hstep
    obtain ⟨h1, -⟩ := hstep
    subst h1
    exact mapGet_del_self _ _
  · intro s sid rc un re h s' em hstep
    simp only [handle, Option.some.injEq] at hstep
    rw [handleJoin_absent s sid rc un re h] at hstep
    simp only [Prod.mk.injEq] at hstep
    obtain ⟨h1, -⟩ := hstep
    subst h1
    exact ⟨_, mapGet_set_self _ _ _, rfl, rfl⟩

/-- C4: every room-scoped event (chat-message, next-step, start-timer,
ai-question, share-photo, disconnect) from a connection absent from the
Connection Registry completes as a silent no-op: state returned
unchanged (neither map mutated) and no emission of any kind. -/
theorem claim_c4 (s : State) (sid msg : String) (now : Nat) (tstr : String)
    (st d : Int) (q photo fn : String) (res : Except Unit String)
    (h : mapGet s.users sid = none) :
    handle s (Event.chatMessage sid msg now tstr) = some (s, []) ∧
    handle s (Event.nextStep sid st) = some (s, []) ∧
    handle s (Event.startTimer sid d) = some (s, []) ∧
    handle s (Event.aiQuestion sid q res now tstr) = some (s, []) ∧
    handle s (Event.sharePhoto sid photo fn tstr) = some (s, []) ∧
    handle s (Event.disconnect sid) = some (s, []) := by
  refine ⟨?_, ?_, ?_, ?_, ?_, ?_⟩ <;>
    simp [handle, handleChat, handleNextStep, handleTimer,
      handleAiQuestion, aiCapture, handlePhoto, handleDisconnect, h]

/-- C6: a room's recipe snapshot is the one supplied by the joiner that
created it, and no completed handler invocation changes the recipe of a
room existing before and after it — in particular a later join for the
same code carrying a different recipe leaves the snapshot intact. -/
theorem claim_c6 :
    (∀ (s : State) (sid rc un : String) (re : Recipe),
       mapGet s.rooms rc = none →
       ∀ s' em, handle s (Event.joinRoom sid rc un re) = some (s', em) →
         ∃ r', mapGet s'.rooms rc = some r' ∧ r'.recipe = re) ∧
    (∀ (s : State) (e : Event) (s' : State) (em : List Emit),
       handle s e = some (s', em) → ∀ (rc : String) (r r' : Room),
       mapGet s.rooms rc = some r → mapGet s'.rooms rc = some r' →
       r'.recipe = r.recipe) := by
  constructor
  · intro s sid rc un re h s' em hstep
    simp only [handle, Option.some.injEq] at hstep
    rw [handleJoin_absent s sid rc un re h] at hstep
    simp only [Prod.mk.injEq] at hstep
    obtain ⟨h1, -⟩ := hstep
    subst h1
    exact ⟨_, mapGet_set_self _ _ _, rfl⟩
  · intro s e s' em hstep rc r r' hbefore hafter
    rcases handle_rooms_cases s e s' em hstep rc r' hafter with
      h | ⟨r0, hr0, -, hrec, -⟩ | ⟨hnone, -⟩
    · rw [hbefore] at h
      injection h with h
      rw [h]
    · rw [hbefore] at hr0
      injection hr0 with h0
      rw [hrec, ← h0]
    · rw [hbefore] at hnone
      cases hnone

/-- C9: the dead fields — room-wide `currentStep`, `startTime`, every
participant's `isReady` — hold their initial values (`0`, null, `false`)
at server start and after every completed handler invocation. -/
theorem claim_c9 :
    deadFieldsInit initState ∧
    (∀ (s : State) (e : Event) (s' : State) (em : List Emit),
       handle s e = some (s', em) → deadFieldsInit s → deadFieldsInit s') := by
  constructor
  · intro rc r h
    simp [initState, mapGet] at h
  · intro s e s' em hstep hinit rc r' h'
    rcases handle_rooms_cases s e s' em hstep rc r' h' with
      h | ⟨r, hr, -, -, hstart, hstep0, -, hready⟩ |
      ⟨-, hstart, hstep0, -, hready⟩
    · exact hinit rc r' h
    · obtain ⟨h1, h2, h3⟩ := hinit rc r hr
      refine ⟨by rw [hstep0, h1], by rw [hstart, h2], ?_⟩
      intro p hp
      rcases hready p hp with h4 | ⟨p1, hp1, h4⟩
      · exact h4
      · rw [h4]
        exact h3 p1 hp1
    · exact ⟨hstep0, hstart, hready⟩

/-- C3: an `ai-question` event from a registered connection (room
present, no interleaving) appends exactly one message of type `ai` to
the room's log and emits exactly one `new-message` room broadcast — and
nothing else, so no error event can reach any client — whether the
outbound call succeeds or fails; on failure the body is the fixed
fallback text, on success the extracted response text. -/
theorem claim_c3 (s : State) (sid question : String)
    (res : Except Unit String) (now : Nat) (tstr : String) (u : UserEntry)
    (room : Room) (hu : mapGet s.users sid = some u)
    (hr : mapGet s.rooms u.roomCode = some room) :
    ∃ s' m, handle s (Event.aiQuestion sid question res now tstr) =
        some (s', [Emit.toRoom u.roomCode (Payload.newMessage m)]) ∧
      m.type = MsgType.ai ∧
      mapGet s'.rooms u.roomCode = some (pushMsg room m) ∧
      (∀ e, res = Except.error e → m.message = fallbackText) ∧
      (∀ txt, res = Except.ok txt → m.message = txt) := by
  have hq : handle s (Event.aiQuestion sid question res now tstr) =
      aiFinish s { roomCode := u.roomCode, gen := room.gen } res now tstr := by
    simp only [handle]
    exact handleAiQuestion_reg s sid res now tstr u room hu hr
  cases res with
  | ok txt =>
    refine ⟨setRoom s u.roomCode (pushMsg room (aiMsg txt now tstr)),
      aiMsg txt now tstr, ?_, rfl, ?_, by simp, ?_⟩
    · rw [hq]
      exact aiFinish_ok_live s _ txt now tstr room hr rfl
    · dsimp [setRoom]
      exact mapGet_set_self _ _ _
    · intro t ht
      cases ht
      rfl
  | error e =>
    refine ⟨setRoom s u.roomCode (pushMsg room (aiMsg fallbackText now tstr)),
      aiMsg fallbackText now tstr, ?_, rfl, ?_, ?_, by simp⟩
    · rw [hq]
      exact aiFinish_err_live s _ e now tstr room hr
    · dsimp [setRoom]
      exact mapGet_set_self _ _ _
    · intro t ht
      rfl

/-- C5: a `next-step` event with client value S from a registered
connection whose participant entry is found stores exactly S in that
participant's record and broadcasts `step-updated` exposing exactly S —
with no clamping, bounds or monotonicity check (S ranges over all
integers, negative included). -/
theorem claim_c5 (s : State) (sid : String) (st : Int) (u : UserEntry)
    (room : Room) (p0 : Participant) (hu : mapGet s.users sid = some u)
    (hr : mapGet s.rooms u.roomCode = some room)
    (hp : room.participants.find? (fun p => p.id == sid) = some p0) :
    ∃ s', handle s (Event.nextStep sid st) =
        some (s',
          [Emit.toRoom u.roomCode (Payload.stepUpdated sid u.username st)]) ∧
      ∃ room', mapGet s'.rooms u.roomCode = some room' ∧
        room'.participants.find? (fun p => p.id == sid) =
          some { p0 with currentStep := st } := by
  refine ⟨setRoom s u.roomCode
      { room with participants := setStepFirst room.participants sid st },
    ?_, ?_⟩
  · simp only [handle]
    exact handleNextStep_reg s sid st u room p0 hu hr hp
  · refine ⟨{ room with participants := setStepFirst room.participants sid st },
      ?_, ?_⟩
    · dsimp [setRoom]
      exact mapGet_set_self _ _ _
    · dsimp
      rw [find?_setStepFirst, hp]
      rfl

/-- C7 counterexample: the trace join(s1, "R"), disconnect(s1) deletes
room "R"; the pending capture of an ai-question issued while s1 was in
the room is `⟨"R", 0⟩`; completing that in-flight call with a *failure*
afterwards crashes the handler (the catch branch re-fetches the deleted
room and throws), contradicting the claim that no handler raises a
fatal error in this situation. -/
theorem claim_c7_counterexample :
    run initState [Event.joinRoom "s1" "R" "u1" ⟨"P", [], 5⟩] =
      some ⟨[("R", ⟨0, [⟨"s1", "u1", 0, false⟩], ⟨"P", [], 5⟩, none, [], 0⟩)],
            [("s1", ⟨"R", "u1"⟩)], 1⟩ ∧
    aiCapture (⟨[("R", ⟨0, [⟨"s1", "u1", 0, false⟩], ⟨"P", [], 5⟩, none, [], 0⟩)],
        [("s1", ⟨"R", "u1"⟩)], 1⟩ : State) "s1" = some (some ⟨"R", 0⟩) ∧
    run initState [Event.joinRoom "s1" "R" "u1" ⟨"P", [], 5⟩,
      Event.disconnect "s1"] = some ⟨[], [], 1⟩ ∧
    handle (⟨[], [], 1⟩ : State)
      (Event.aiFinish ⟨"R", 0⟩ (Except.error ()) 5 "t") = none := by
  refine ⟨?_, ?_, ?_, ?_⟩ <;> rfl

/-- C7 amended: when the in-flight AI call's room has been deleted, a
*successful* completion is harmless — the push lands on the orphaned
object, leaving the store unchanged, and the broadcast goes to an empty
room — but a *failed* completion crashes: the catch branch re-fetches
the now-absent room and throws on `room.messages.push`. -/
theorem claim_c7_amended (s : State) (p : Pending) (now : Nat)
    (tstr : String) (h : mapGet s.rooms p.roomCode = none) :
    (∀ txt, handle s (Event.aiFinish p (Except.ok txt) now tstr) =
       some (s, [Emit.toRoom p.roomCode
                   (Payload.newMessage (aiMsg txt now tstr))])) ∧
    handle s (Event.aiFinish p (Except.error ()) now tstr) = none := by
  constructor
  · intro txt
    simp only [handle]
    exact aiFinish_ok_gone s p txt now tstr h
  · simp only [handle]
    exact aiFinish_err_gone s p () now tstr h

/-- C8: a chat message is appended at the tail of its room's log and is
the room-wide broadcast of that single invocation (so, handlers being
processed in order, all members observe messages in send order); and a
successful join broadcasts `user-joined` carrying the room's *full*
message history, so a participant joining after a message was appended
receives it at join time. -/
theorem claim_c8 :
    (∀ (s : State) (sid msg : String) (now : Nat) (tstr : String)
       (u : UserEntry) (room : Room), mapGet s.users sid = some u →
       mapGet s.rooms u.roomCode = some room →
       handle s (Event.chatMessage sid msg now tstr) =
         some (setRoom s u.roomCode
             (pushMsg room (chatMsg u.username msg now tstr)),
           [Emit.toRoom u.roomCode
              (Payload.newMessage (chatMsg u.username msg now tstr))])) ∧
    (∀ (s : State) (sid rc un : String) (re : Recipe) (r : Room),
       mapGet s.rooms rc = some r → r.participants.length < 8 →
       handle s (Event.joinRoom sid rc un re) =
         some (setRoom { s with users := mapSet s.users sid ⟨rc, un⟩ } rc
             { r with participants := r.participants ++ [joiner sid un] },
           [Emit.toRoom rc (Payload.userJoined
              (r.participants ++ [joiner sid un]) r.recipe r.messages)])) := by
  constructor
  · intro s sid msg now tstr u room hu hr
    simp only [handle]
    exact handleChat_reg s sid msg now tstr u room hu hr
  · intro s sid rc un re r h hlt
    simp only [handle, Option.some.injEq]
    exact handleJoin_present s sid rc un re r h hlt

/-- C10: a connection already registered (in room `uA.roomCode`) that
joins a room B below capacity gets a fresh step-0 participant entry
appended to B — one more entry with its id than before, a duplicate when
it was already in B — and its registry entry overwritten to B, while any
distinct old room's binding is untouched; its subsequent disconnect
removes its entries from B only (deleting B if emptied), still leaving
every distinct room's binding — stale entry included — exactly as it
was. -/
theorem claim_c10 (s : State) (sid uB : String) (B : String) (re : Recipe)
    (uA : UserEntry) (rB : Room)
    (hreg : mapGet s.users sid = some uA)
    (hB : mapGet s.rooms B = some rB)
    (hcap : rB.participants.length < 8) :
    ∀ s' em, handle s (Event.joinRoom sid B uB re) = some (s', em) →
      mapGet s'.rooms B =
        some { rB with participants := rB.participants ++ [joiner sid uB] } ∧
      ((rB.participants ++ [joiner sid uB]).filter
          (fun p => p.id == sid)).length =
        (rB.participants.filter (fun p => p.id == sid)).length + 1 ∧
      mapGet s'.users sid = some ⟨B, uB⟩ ∧
      (uA.roomCode ≠ B →
        mapGet s'.rooms uA.roomCode = mapGet s.rooms uA.roomCode) ∧
      (∀ s'' em', handle s' (Event.disconnect sid) = some (s'', em') →
        (uA.roomCode ≠ B →
          mapGet s''.rooms uA.roomCode = mapGet s.rooms uA.roomCode) ∧
        ((mapGet s''.rooms B = some { rB with participants := (rB.participants ++ [joiner sid uB]).filter (fun p => p.id != sid) }) ∨
         ((rB.participants ++ [joiner sid uB]).filter
             (fun p => p.id != sid) = [] ∧ mapGet s''.rooms B = none))) := by
  intro s' em hstep
  simp only [handle, Option.some.injEq] at hstep
  rw [handleJoin_present s sid B uB re rB hB hcap] at hstep
  simp only [Prod.mk.injEq] at hstep
  obtain ⟨h1, -⟩ := hstep
  subst h1
  refine ⟨?_, ?_, ?_, ?_, ?_⟩
  · dsimp [setRoom]
    exact mapGet_set_self _ _ _
  · simp [joiner]
  · dsimp [setRoom]
    exact mapGet_set_self _ _ _
  · intro hAB
    dsimp [setRoom]
    exact mapGet_set_ne _ _ _ _ hAB
  · intro s'' em' hstep'
    have hu' : mapGet (setRoom { s with users := mapSet s.users sid ⟨B, uB⟩ } B
        { rB with participants := rB.participants ++ [joiner sid uB] }).users
        sid = some ⟨B, uB⟩ := by
      dsimp [setRoom]
      exact mapGet_set_self _ _ _
    have hr' : mapGet (setRoom { s with users := mapSet s.users sid ⟨B, uB⟩ } B
        { rB with participants := rB.participants ++ [joiner sid uB] }).rooms
        B = some { rB with participants := rB.participants ++ [joiner sid uB] } := by
      dsimp [setRoom]
      exact mapGet_set_self _ _ _
    simp only [handle, Option.some.injEq] at hstep'
    by_cases hempty : ({ rB with participants :=
        rB.participants ++ [joiner sid uB] } : Room).participants.filter
        (fun p => p.id != sid) = []
    · rw [handleDisconnect_last _ sid ⟨B, uB⟩ _ hu' hr' hempty] at hstep'
      simp only [Prod.mk.injEq] at hstep'
      obtain ⟨h2, -⟩ := hstep'
      subst h2
      constructor
      · intro hAB
        dsimp [setRoom]
        rw [mapGet_del_ne _ _ _ hAB]
        exact mapGet_set_ne _ _ _ _ hAB
      · exact Or.inr ⟨hempty, mapGet_del_self _ _⟩
    · rw [handleDisconnect_rest _ sid ⟨B, uB⟩ _ hu' hr' hempty] at hstep'
      simp only [Prod.mk.injEq] at hstep'
      obtain ⟨h2, -⟩ := hstep'
      subst h2
      constructor
      · intro hAB
        dsimp [setRoom]
        rw [mapGet_set_ne _ _ _ _ hAB]
        exact mapGet_set_ne _ _ _ _ hAB
      · left
        dsimp [setRoom]
        exact mapGet_set_self _ _ _

/-! ## Witnesses -/

/-- C1 at concrete inputs: two joins to fresh `R` give count 2; a 9th
join on a full room is rejected with the state unchanged. -/
theorem claim_c1_witness :
    (∃ s', run initState
        (joinEvents "R" [("s1", "u1", recW), ("s2", "u2", recW)]) = some s' ∧
      roomCount s' "R" = min 2 8) ∧
    handle stFull (Event.joinRoom "s9" "R" "u9" recW) =
      some (stFull, [Emit.toSocket "s9" (Payload.roomFull roomFullMsg)]) :=
  ⟨claim_c1.1 initState "R" rfl [("s1", "u1", recW), ("s2", "u2", recW)],
   claim_c1.2 stFull "s9" "R" "u9" recW roomFull8 rfl rfl⟩

/-- C2 at concrete inputs: the non-emptiness invariant survives a join;
disconnecting the only participant deletes room `R`; re-joining a fresh
code creates a room with an empty log. -/
theorem claim_c2_witness :
    roomsNonempty (handleJoin stOne "s2" "R" "u2" recW).1 ∧
    mapGet (handleDisconnect stOne "s1").1.rooms "R" = none ∧
    (∃ r', mapGet (handleJoin initState "s1" "R" "u1" recW).1.rooms "R" =
       some r' ∧ r'.messages = [] ∧ r'.participants = [joiner "s1" "u1"]) := by
  refine ⟨?_, ?_, ?_⟩
  · exact claim_c2.1 stOne (Event.joinRoom "s2" "R" "u2" recW)
      (handleJoin stOne "s2" "R" "u2" recW).1
      (handleJoin stOne "s2" "R" "u2" recW).2 rfl
      (roomsNonempty_of_all stOne rfl)
  · exact claim_c2.2.1 stOne "s1" ⟨"R", "u1"⟩ roomOne rfl rfl rfl
      (handleDisconnect stOne "s1").1 (handleDisconnect stOne "s1").2 rfl
  · exact claim_c2.2.2 initState "s1" "R" "u1" recW rfl
      (handleJoin initState "s1" "R" "u1" recW).1
      (handleJoin initState "s1" "R" "u1" recW).2 rfl

/-- C3 at a concrete failing call: the room of `stOne` gains exactly one
`ai` message whose body is the fallback text. -/
theorem claim_c3_witness :
    ∃ s' m, handle stOne (Event.aiQuestion "s1" "q" (Except.error ()) 9 "t") =
        some (s', [Emit.toRoom "R" (Payload.newMessage m)]) ∧
      m.type = MsgType.ai ∧ mapGet s'.rooms "R" = some (pushMsg roomOne m) ∧
      m.message = fallbackText := by
  obtain ⟨s', m, h1, h2, h3, h4, -⟩ :=
    claim_c3 stOne "s1" "q" (Except.error ()) 9 "t" ⟨"R", "u1"⟩ roomOne rfl rfl
  exact ⟨s', m, h1, h2, h3, h4 () rfl⟩

/-- C4 at a concrete unregistered connection on the fresh server. -/
theorem claim_c4_witness :
    handle initState (Event.chatMessage "sx" "m" 1 "t") = some (initState, []) ∧
    handle initState (Event.nextStep "sx" (-2)) = some (initState, []) ∧
    handle initState (Event.startTimer "sx" 3) = some (initState, []) ∧
    handle initState (Event.aiQuestion "sx" "q" (Except.ok "a") 1 "t") =
      some (initState, []) ∧
    handle initState (Event.sharePhoto "sx" "p" "f" "t") = some (initState, []) ∧
    handle initState (Event.disconnect "sx") = some (initState, []) :=
  claim_c4 initState "sx" "m" 1 "t" (-2) 3 "q" "p" "f" (Except.ok "a") rfl

/-- C5 at a concrete negative step value: `-3` is stored and broadcast
verbatim. -/
theorem claim_c5_witness :
    ∃ s', handle stOne (Event.nextStep "s1" (-3)) =
        some (s', [Emit.toRoom "R" (Payload.stepUpdated "s1" "u1" (-3))]) ∧
      ∃ room', mapGet s'.rooms "R" = some room' ∧
        room'.participants.find? (fun p => p.id == "s1") =
          some ⟨"s1", "u1", -3, false⟩ :=
  claim_c5 stOne "s1" (-3) ⟨"R", "u1"⟩ roomOne ⟨"s1", "u1", 0, false⟩ rfl rfl rfl

/-- C6 at concrete inputs: creation stores the first joiner's recipe; a
second join carrying a *different* recipe leaves it unchanged. -/
theorem claim_c6_witness :
    (∃ r', mapGet (handleJoin initState "s1" "R" "u1" recW).1.rooms "R" =
       some r' ∧ r'.recipe = recW) ∧
    (∃ r', mapGet (handleJoin stOne "s2" "R" "u2" recW2).1.rooms "R" =
       some r' ∧ r'.recipe = recW) := by
  constructor
  · exact claim_c6.1 initState "s1" "R" "u1" recW rfl
      (handleJoin initState "s1" "R" "u1" recW).1
      (handleJoin initState "s1" "R" "u1" recW).2 rfl
  · refine ⟨{ roomOne with
        participants := roomOne.participants ++ [joiner "s2" "u2"] }, rfl, ?_⟩
    exact claim_c6.2 stOne (Event.joinRoom "s2" "R" "u2" recW2)
      (handleJoin stOne "s2" "R" "u2" recW2).1
      (handleJoin stOne "s2" "R" "u2" recW2).2 rfl "R" roomOne
      { roomOne with participants := roomOne.participants ++ [joiner "s2" "u2"] }
      rfl rfl

/-- C7 (amended) at a concrete deleted room: a successful completion is
a harmless empty-room broadcast; a failed completion crashes. -/
theorem claim_c7_amended_witness :
    handle (⟨[], [], 1⟩ : State)
        (Event.aiFinish ⟨"R", 0⟩ (Except.ok "hi") 5 "t") =
      some (⟨[], [], 1⟩,
        [Emit.toRoom "R" (Payload.newMessage (aiMsg "hi" 5 "t"))]) ∧
    handle (⟨[], [], 1⟩ : State)
      (Event.aiFinish ⟨"R", 0⟩ (Except.error ()) 5 "t") = none :=
  ⟨(claim_c7_amended ⟨[], [], 1⟩ ⟨"R", 0⟩ 5 "t" rfl).1 "hi",
   (claim_c7_amended ⟨[], [], 1⟩ ⟨"R", 0⟩ 5 "t" rfl).2⟩

/-- C8 at concrete inputs: the chat append/broadcast and the
full-history `user-joined` broadcast. -/
theorem claim_c8_witness :
    handle stOne (Event.chatMessage "s1" "hello" 4 "t") =
      some (setRoom stOne "R" (pushMsg roomOne (chatMsg "u1" "hello" 4 "t")),
        [Emit.toRoom "R" (Payload.newMessage (chatMsg "u1" "hello" 4 "t"))]) ∧
    handle stOne (Event.joinRoom "s2" "R" "u2" recW) =
      some (setRoom { stOne with users := mapSet stOne.users "s2" ⟨"R", "u2"⟩ }
          "R" { roomOne with participants := roomOne.participants ++ [joiner "s2" "u2"] },
        [Emit.toRoom "R" (Payload.userJoined
           (roomOne.participants ++ [joiner "s2" "u2"]) recW [])]) :=
  ⟨claim_c8.1 stOne "s1" "hello" 4 "t" ⟨"R", "u1"⟩ roomOne rfl rfl,
   claim_c8.2 stOne "s2" "R" "u2" recW roomOne rfl (by decide)⟩

/-- C9 after a concrete join: the dead fields still hold their initial
values. -/
theorem claim_c9_witness :
    deadFieldsInit (handleJoin stOne "s2" "R" "u2" recW).1 :=
  claim_c9.2 stOne (Event.joinRoom "s2" "R" "u2" recW)
    (handleJoin stOne "s2" "R" "u2" recW).1
    (handleJoin stOne "s2" "R" "u2" recW).2 rfl
    (deadFields_of_all stOne rfl)

/-- C10 at concrete inputs: `s1`, registered in `R`, joins `B2`; the
entry lands in `B2`, the registry moves to `B2`, `R` is untouched, and
after `s1` disconnects the stale entry still sits in `R`. -/
theorem claim_c10_witness :
    mapGet (handleJoin stTwo "s1" "B2" "u1" recW).1.rooms "B2" =
      some { roomB with participants := roomB.participants ++ [joiner "s1" "u1"] } ∧
    ((roomB.participants ++ [joiner "s1" "u1"]).filter
        (fun p => p.id == "s1")).length =
      (roomB.participants.filter (fun p => p.id == "s1")).length + 1 ∧
    mapGet (handleJoin stTwo "s1" "B2" "u1" recW).1.users "s1" =
      some ⟨"B2", "u1"⟩ ∧
    mapGet (handleJoin stTwo "s1" "B2" "u1" recW).1.rooms "R" =
      mapGet stTwo.rooms "R" ∧
    mapGet (handleDisconnect (handleJoin stTwo "s1" "B2" "u1" recW).1
        "s1").1.rooms "R" = mapGet stTwo.rooms "R" ∧
    (mapGet (handleDisconnect (handleJoin stTwo "s1" "B2" "u1" recW).1
        "s1").1.rooms "B2" =
      some { roomB with participants := (roomB.participants ++ [joiner "s1" "u1"]).filter (fun p => p.id != "s1") } ∨
     ((roomB.participants ++ [joiner "s1" "u1"]).filter
        (fun p => p.id != "s1") = [] ∧
      mapGet (handleDisconnect (handleJoin stTwo "s1" "B2" "u1" recW).1
        "s1").1.rooms "B2" = none)) := by
  have h := claim_c10 stTwo "s1" "u1" "B2" recW ⟨"R", "u1"⟩ roomB rfl rfl
    (by decide) (handleJoin stTwo "s1" "B2" "u1" recW).1
    (handleJoin stTwo "s1" "B2" "u1" recW).2 rfl
  have h5 := h.2.2.2.2
    (handleDisconnect (handleJoin stTwo "s1" "B2" "u1" recW).1 "s1").1
    (handleDisconnect (handleJoin stTwo "s1" "B2" "u1" recW).1 "s1").2 rfl
  exact ⟨h.1, h.2.1, h.2.2.1, h.2.2.2.1 (by decide), h5.1 (by decide), h5.2⟩

end RecipeRoom
